import Mathlib

/-!
Verification development for the scan/enrich/cache pipeline of
`DLGameViewer2.py`.

The Python source is shallowly embedded: pure helpers become Lean
functions; I/O (network fetches, the file system, directory listings)
is supplied through explicit oracle records; the per-folder scan loop
becomes a fold over an explicit `ScanState`.  Machine details that the
claims do not touch (actual image bytes, SQLite, the GUI toolkit) are
abstracted to opaque data carried through unchanged.
-/

namespace DLGV

/-- Model of `os.path.join a b` (separator written `/`). -/
def pathJoin (a b : String) : String := a ++ "/" ++ b

/-- Model of the Python slice `s[:2]` (code-point based). -/
def pyPrefix2 (s : String) : String := ⟨s.toList.take 2⟩

/-- Model of `f"\x7bidx:02d\x7d"`: decimal, left-padded with `0` to width 2. -/
def pad2 (n : Nat) : String := if n < 10 then "0" ++ toString n else toString n

/-- Left-to-right replacement of every `\x7b\x7d` hole by `arg`. -/
def replaceHoles (arg : List Char) : List Char → List Char
  | '\x7b' :: '\x7d' :: rest => arg ++ replaceHoles arg rest
  | c :: rest => c :: replaceHoles arg rest
  | [] => []

/-- Model of `str.format` with positional `\x7b\x7d` holes:
every occurrence of the hole is replaced by the argument. -/
def pyFormat (tmpl arg : String) : String := ⟨replaceHoles arg.toList tmpl.toList⟩

/-- Model of `url.lstrip('/')`: drop all leading slashes. -/
def lstripSlash (s : String) : String := ⟨s.toList.dropWhile (· = '/')⟩

/-- Model of `str.lower` (per-character lowercasing). -/
def strToLower (s : String) : String := ⟨s.toList.map Char.toLower⟩

/-- Model of `str.endswith`. -/
def strEndsWith (s suf : String) : Bool := suf.toList.isSuffixOf s.toList

/-- Model of `str.startswith`. -/
def strStartsWith (s head : String) : Bool := head.toList.isPrefixOf s.toList

/-! ### IdentifierExtractor — `DLGameViewer.extract_game_code`

The source is `re.search(r'([RV]J\d+)', folder_name)`.  `re.search`
scans start positions left to right and at the first position where the
pattern matches returns the match, with `\d+` greedy (maximal, since
nothing follows it in the pattern).  `codeAt` is the match attempt at
one position, `searchCode` the left-to-right scan. -/

/-- Attempt to match `[RV]J\d+` at the head of the character list,
returning the (greedy) matched characters. -/
def codeAt : List Char → Option (List Char)
  | c :: j :: d :: rest =>
      if (c = 'R' ∨ c = 'V') ∧ j = 'J' ∧ d.isDigit then
        some (c :: j :: d :: rest.takeWhile (·.isDigit))
      else none
  | _ => none

/-- Left-to-right scan for the first position where `codeAt` matches. -/
def searchCode : List Char → Option (List Char)
  | [] => none
  | c :: rest =>
      match codeAt (c :: rest) with
      | some m => some m
      | none => searchCode rest

/-- `DLGameViewer.extract_game_code`. -/
def extract_game_code (folder_name : String) : Option String :=
  (searchCode folder_name.toList).map fun m => ⟨m⟩

example : extract_game_code "RJ123456_Title" = some "RJ123456" := by decide
example : extract_game_code "MyGame" = none := by decide
example : extract_game_code "foo_VJ01x_RJ9" = some "VJ01" := by decide

/-! ### URL template tables — `DLGameViewer.__init__` -/

/-- `self.base_urls` (association list, insertion order of the dict). -/
def base_urls : List (String × String) :=
  [("RJ", "https://www.dlsite.com/maniax/work/=/product_id/\x7b\x7d.html"),
   ("VJ", "https://www.dlsite.com/pro/work/=/product_id/\x7b\x7d.html")]

/-- `self.api_urls`. -/
def api_urls : List (String × String) :=
  [("RJ", "https://www.dlsite.com/maniax/product/info/ajax?product_id=\x7b\x7d&cdn_cache_min=1"),
   ("VJ", "https://www.dlsite.com/pro/product/info/ajax?product_id=\x7b\x7d&cdn_cache_min=1")]

/-- Dictionary lookup `d[k]`; `none` models a `KeyError`. -/
def dictGet {α : Type} (d : List (String × α)) (k : String) : Option α :=
  (d.find? fun p => p.1 == k).map Prod.snd

/-! ### Oracles for I/O

The file system is a partial map from paths to file contents (contents
abstracted to `Nat`).  Network and directory I/O are oracle functions
in an `Env` record; a `none` answer models any exception the source
would see there (connection error, non-2xx status via
`raise_for_status`, undecodable payload). -/

/-- File system: path → file bytes (abstracted), `none` = no such file. -/
def Fs : Type := String → Option Nat

/-- One entry of the JSON object returned by the rating API:
`data[game_code]` with its optional `rate_average_2dp` field. -/
structure RateEntry where
  rate_average_2dp : Option ℚ
deriving DecidableEq

/-- Parse result of the product HTML page, per the `BeautifulSoup`
lookups in `scrape_game_info`: each field is `none` when the
corresponding element is absent from the page. -/
structure Soup where
  /-- text of `h1[itemprop=name]` (already stripped). -/
  title : Option String
  /-- text of `span.maker_name`. -/
  makerName : Option String
  /-- `title` attributes of the spans under `div#category_type`
  (`""` when a span lacks the attribute). -/
  categoryType : Option (List String)
  /-- texts of the anchors under `div.main_genre`. -/
  mainGenre : Option (List String)
  /-- `data-src` attributes of the divs under `div.product-slider-data`. -/
  sliderData : Option (List String)
deriving DecidableEq

/-- The I/O oracles one scan run interacts with. -/
structure Env where
  /-- `requests.get` on a product page + HTML parse; `none` = network
  error or non-2xx status. -/
  htmlFetch : String → Option Soup
  /-- `requests.get` on the rating API + JSON parse; `none` = network
  error, non-2xx status, or unparseable JSON. -/
  apiFetch : String → Option (List (String × RateEntry))
  /-- image fetch + decode + resize + re-encode; `none` = fetch or
  decode failure. -/
  netImg : String → Option Nat
  /-- `os.path.exists` on a configured game path. -/
  dirExists : String → Bool
  /-- `os.path.isdir`. -/
  isDir : String → Bool
  /-- `os.listdir`. -/
  listDir : String → List String
  /-- `os.walk` flattened: every file under the folder, as a path
  relative to the folder root. -/
  walkFiles : String → List String

/-- Network requests issued while processing one folder. -/
inductive ScanEvent where
  | fetchPage (url : String)
  | fetchApi (url : String)
  | fetchImg (idx : Nat) (url : String)
deriving DecidableEq, Repr

/-! ### `DLGameViewer.get_rating` -/

/-- `DLGameViewer.get_rating`: pick the API URL by the identifier's
two-letter head, fetch JSON, read `data[game_code]['rate_average_2dp']`.
The whole body is wrapped in `try/except → 0.0`, so a missing dict key
(`api_urls[prefix]` or `data[game_code]`), a failed request, or a
missing rating field all degrade to `0`.  Also returns the API request
issued, if any. -/
def get_rating (env : Env) (game_code : String) : ℚ × List ScanEvent :=
  match dictGet api_urls (pyPrefix2 game_code) with
  | none => (0, [])
  | some tmpl =>
      let url := pyFormat tmpl game_code
      match env.apiFetch url with
      | none => (0, [.fetchApi url])
      | some data =>
          match dictGet data game_code with
          | none => (0, [.fetchApi url])
          | some e => (e.rate_average_2dp.getD 0, [.fetchApi url])

/-! ### AssetCache — `DLGameViewer.download_images` -/

/-- Destination path of the cached image with sequence index `idx`:
`os.path.join(folder_path, "thumb_imgs", f"\x7bidx:02d\x7d.jpg")`. -/
def imgPath (folder_path : String) (idx : Nat) : String :=
  pathJoin (pathJoin folder_path "thumb_imgs") (pad2 idx ++ ".jpg")

/-- URL fix-up in `download_images`: a URL without an `http` scheme is
upgraded to `https://` after stripping leading slashes. -/
def fixUrl (url : String) : String :=
  if strStartsWith url "http" then url else "https://" ++ lstripSlash url

/-- The `for idx, url in enumerate(image_urls)` loop of
`download_images`: skip an index whose destination file exists;
otherwise issue the fetch and, on success, write the file (a per-URL
failure is logged and skipped). -/
def downloadLoop (netImg : String → Option Nat) (folder_path : String) :
    Nat → List String → Fs → Fs × List ScanEvent
  | _, [], fs => (fs, [])
  | idx, url :: rest, fs =>
      if (fs (imgPath folder_path idx)).isSome then
        downloadLoop netImg folder_path (idx + 1) rest fs
      else
        let u := fixUrl url
        let fs' : Fs :=
          match netImg u with
          | none => fs
          | some b => fun p => if p = imgPath folder_path idx then some b else fs p
        let r := downloadLoop netImg folder_path (idx + 1) rest fs'
        (r.1, .fetchImg idx u :: r.2)

/-- `DLGameViewer.download_images`: process at most the first 5
candidate URLs.  (The source's unused `game_code` parameter is
omitted.) -/
def download_images (netImg : String → Option Nat) (image_urls : List String)
    (folder_path : String) (fs : Fs) : Fs × List ScanEvent :=
  downloadLoop netImg folder_path 0 (image_urls.take 5) fs

/-! ### MetadataSource — `DLGameViewer.scrape_game_info` -/

/-- The row-shaped dict returned by `scrape_game_info`. -/
structure GameInfo where
  game_code : String
  title : String
  rating : ℚ
  circle : String
  work_type : String
  genres : String
  cover_image : String
deriving DecidableEq

/-- `', '.join(l)`. -/
def joinComma : List String → String
  | [] => ""
  | [s] => s
  | s :: rest => s ++ ", " ++ joinComma rest

/-- Lines 264–272 of `scrape_game_info`: the cover image path is `""`
when the page yielded no candidate image URLs, and otherwise the fixed
`<folder_path>/thumb_imgs/00.jpg` — with the downloads triggered only
when that file does not already exist.  Returns
`(cover_image, file system, requests)`. -/
def cover_for (netImg : String → Option Nat) (image_urls : List String)
    (folder_path : String) (fs : Fs) : String × Fs × List ScanEvent :=
  if image_urls = [] then ("", fs, [])
  else
    let cover := pathJoin (pathJoin folder_path "thumb_imgs") "00.jpg"
    if (fs cover).isSome then (cover, fs, [])
    else
      let d := download_images netImg image_urls folder_path fs
      (cover, d.1, d.2)

/-- `DLGameViewer.scrape_game_info`.  The `base_urls[prefix]` lookup
sits *outside* the `try`, so an unregistered head raises `KeyError`
(modelled `.error ()`), which propagates out of the scan.  Inside the
`try`, a failed page fetch or a missing `h1[itemprop=name]` aborts with
`None` (`.ok none`); every other field degrades.  Also returns the
updated file system (image downloads) and the requests issued. -/
def scrape_game_info (env : Env) (game_code folder_path : String) (fs : Fs) :
    Except Unit (Option GameInfo) × Fs × List ScanEvent :=
  match dictGet base_urls (pyPrefix2 game_code) with
  | none => (.error (), fs, [])
  | some tmpl =>
      let url := pyFormat tmpl game_code
      match env.htmlFetch url with
      | none => (.ok none, fs, [.fetchPage url])
      | some soup =>
          match soup.title with
          | none => (.ok none, fs, [.fetchPage url])
          | some title =>
              let ra := get_rating env game_code
              let circle := soup.makerName.getD "Unknown"
              let work_type := joinComma ((soup.categoryType.getD []).filter (· != ""))
              let genres := joinComma (soup.mainGenre.getD [])
              let image_urls := soup.sliderData.getD []
              let ci := cover_for env.netImg image_urls folder_path fs
              (.ok (some { game_code := game_code, title := title, rating := ra.1,
                           circle := circle, work_type := work_type, genres := genres,
                           cover_image := ci.1 }),
               ci.2.1, .fetchPage url :: (ra.2 ++ ci.2.2))

/-! ### `DLGameViewer.get_exe_files`

The source walks the folder and keeps every file whose *name*
lower-cases to something ending in `.exe`, recording its path relative
to the folder root; it then serialises the list as JSON.  Since a
relative path ends in its file name, testing the suffix on the relative
path is equivalent; the JSON round-trip (`json.loads(json.dumps(l)) = l`)
is kept as the list itself. -/
def get_exe_files (files : List String) : List String :=
  files.filter fun f => strEndsWith (strToLower f) ".exe"

/-! ### ScanPipeline — `DLGameViewer.process_folders`

Per-folder state machine over an explicit state.  `os.path.normpath`
is kept abstract as a function parameter `npath` (its platform-specific
behaviour is irrelevant to the claims; what matters is that both sides
of every path comparison go through it). -/

/-- One row of the `games` table as inserted by the scan
(`exe_files` kept as the list the stored JSON serialises). -/
structure GameRow where
  game_code : String
  title : String
  rating : ℚ
  circle : String
  work_type : String
  genres : String
  cover_image : String
  folder_path : String
  exe_files : List String
deriving DecidableEq

/-- Terminal classification of one visited folder in a scan run. -/
inductive Classification where
  | registered
  | skipped
  | noIdentifier
  | enrichmentFailed
  | noExecutable
deriving DecidableEq, Repr

/-- Instrumented per-folder outcome: the normalized path, the terminal
classification, and the network requests issued for this folder. -/
structure FolderOutcome where
  name : String
  path : String
  classification : Classification
  events : List ScanEvent
deriving DecidableEq

/-- Mutable state of `process_folders`: the in-memory set of registered
normalized paths (seeded from the DB, grown on insert), the three
report lists, the rows inserted into `games`, and the file system. -/
structure ScanState where
  registered : List String
  skipped : List String
  invalid : List String
  no_exe : List String
  rows : List GameRow
  fs : Fs

/-- The body of the inner `for folder_name in os.listdir(game_path)`
loop, lines 318–372: normalize, dedup-check against `registered`,
extract the identifier, enrich, discover executables, classify, and
insert.  Returns `none` for a non-directory entry (silently skipped
with no classification); `.error` models the uncaught `KeyError` from
`base_urls[prefix]`. -/
def process_one (env : Env) (npath : String → String) (st : ScanState)
    (game_path folder_name : String) :
    Except Unit (ScanState × Option FolderOutcome) :=
  let folder_path := npath (pathJoin game_path folder_name)
  if ¬ env.isDir folder_path then .ok (st, none)
  else if folder_path ∈ st.registered then
    .ok ({ st with skipped := st.skipped ++ [folder_name] },
         some ⟨folder_name, folder_path, .skipped, []⟩)
  else
    match extract_game_code folder_name with
    | none =>
        .ok ({ st with invalid := st.invalid ++ [folder_path] },
             some ⟨folder_name, folder_path, .noIdentifier, []⟩)
    | some game_code =>
        match scrape_game_info env game_code folder_path st.fs with
        | (.error e, _, _) => .error e
        | (.ok none, fs', evs) =>
            .ok ({ st with invalid := st.invalid ++ [folder_path], fs := fs' },
                 some ⟨folder_name, folder_path, .enrichmentFailed, evs⟩)
        | (.ok (some info), fs', evs) =>
            let exe_files := get_exe_files (env.walkFiles folder_path)
            if exe_files = [] then
              .ok ({ st with no_exe := st.no_exe ++ [folder_name], fs := fs' },
                   some ⟨folder_name, folder_path, .noExecutable, evs⟩)
            else
              .ok ({ st with
                       rows := st.rows ++
                         [{ game_code := info.game_code, title := info.title,
                            rating := info.rating, circle := info.circle,
                            work_type := info.work_type, genres := info.genres,
                            cover_image := info.cover_image,
                            folder_path := folder_path, exe_files := exe_files }],
                       registered := st.registered ++ [folder_path], fs := fs' },
                   some ⟨folder_name, folder_path, .registered, evs⟩)

/-- Fold `process_one` over the entries of one game path, collecting
the instrumented outcomes. -/
def processNames (env : Env) (npath : String → String) (game_path : String) :
    ScanState → List String → Except Unit (ScanState × List FolderOutcome)
  | st, [] => .ok (st, [])
  | st, name :: rest =>
      match process_one env npath st game_path name with
      | .error e => .error e
      | .ok (st', o) =>
          match processNames env npath game_path st' rest with
          | .error e => .error e
          | .ok (st'', outs) => .ok (st'', o.elim outs (· :: outs))

/-- The outer `for game_path in self.game_paths` loop: a game path that
does not exist is skipped with a log line. -/
def processPaths (env : Env) (npath : String → String) :
    ScanState → List String → Except Unit (ScanState × List FolderOutcome)
  | st, [] => .ok (st, [])
  | st, gp :: rest =>
      if ¬ env.dirExists gp then processPaths env npath st rest
      else
        match processNames env npath gp st (env.listDir gp) with
        | .error e => .error e
        | .ok (st', outs) =>
            match processPaths env npath st' rest with
            | .error e => .error e
            | .ok (st'', outs') => .ok (st'', outs ++ outs')

/-- `DLGameViewer.process_folders`: reset the report lists, load every
`folder_path` from the DB normalized into a membership set, then walk
all configured game paths. -/
def process_folders (env : Env) (npath : String → String)
    (dbPaths game_paths : List String) (fs : Fs) :
    Except Unit (ScanState × List FolderOutcome) :=
  processPaths env npath
    { registered := dbPaths.map npath, skipped := [], invalid := [],
      no_exe := [], rows := [], fs := fs }
    game_paths

/-! ### `GameViewerGUI.scan_complete` — the scan report -/

/-- The counts shown by `scan_complete` (lines 1299–1309): one count
per list kept by the scanner. -/
structure ScanReport where
  skipped_count : Nat
  invalid_count : Nat
  no_exe_count : Nat
deriving DecidableEq, Repr

/-- `GameViewerGUI.scan_complete`, report part. -/
def scan_complete (st : ScanState) : ScanReport :=
  ⟨st.skipped.length, st.invalid.length, st.no_exe.length⟩

/-! ### `resize_image_maintain_aspect`

The source computes with Python floats; the embedding idealises them as
exact rationals (`ℚ`).  `int(...)` truncates toward zero, which on the
non-negative values arising here is the floor. -/

/-- `THUMBNAIL_SIZE` constant of the source. -/
def THUMBNAIL_SIZE : Nat × Nat := (100, 100)

/-- `CARD_IMAGE_SIZE` constant of the source. -/
def CARD_IMAGE_SIZE : Nat × Nat := (250, 180)

/-- `resize_image_maintain_aspect(image, target_size)` on the
dimension pairs. -/
def resize_image_maintain_aspect (size target_size : Nat × Nat) : Nat × Nat :=
  let aspect : ℚ := (size.1 : ℚ) / (size.2 : ℚ)
  let target_aspect : ℚ := (target_size.1 : ℚ) / (target_size.2 : ℚ)
  if aspect > target_aspect then
    (target_size.1, (⌊(target_size.1 : ℚ) / aspect⌋).toNat)
  else
    ((⌊(target_size.2 : ℚ) * aspect⌋).toNat, target_size.2)

/-! ### AssetPrefetchQueue — `GameViewerGUI.image_loader_thread`

One worker's processing of the requests it dequeues, in order.  The
`img_label` widget handle is abstracted to a `Nat`; opening an image is
an oracle giving its dimensions (`none` = `Image.open` raised, which
the inner `try/except` swallows).  A delivery is the
`(handle, resized dimensions)` pair handed to `window.after`. -/

/-- One queued request: `(img_label, img_path, size)`. -/
structure ImgTask where
  label : Nat
  path : String
  size : Nat × Nat
deriving DecidableEq

/-- `GameViewerGUI.image_loader_thread`, one worker consuming its
sequence of dequeued tasks: a task whose path fails the
`os.path.exists` check is dropped (`task_done; continue`); a decode
failure is swallowed; otherwise the resized image is delivered. -/
def image_loader_thread (fsExists : String → Bool)
    (openImg : String → Option (Nat × Nat)) :
    List ImgTask → List (Nat × (Nat × Nat))
  | [] => []
  | t :: rest =>
      if ¬ fsExists t.path then image_loader_thread fsExists openImg rest
      else
        match openImg t.path with
        | none => image_loader_thread fsExists openImg rest
        | some dims =>
            (t.label, resize_image_maintain_aspect dims t.size) ::
              image_loader_thread fsExists openImg rest

/-- `GameViewerGUI.create_game_frame`, cover-image part (lines
1567–1573): enqueue a prefetch request only if the stored cover path
exists on disk; otherwise show the no-image text (`none`). -/
def card_image_request (fsExists : String → Bool) (label : Nat)
    (cover : String) : Option ImgTask :=
  if fsExists cover then some ⟨label, cover, CARD_IMAGE_SIZE⟩ else none

/-! ### Spec-side reading of the identifier pattern (for C4)

Written from the spec's words: an occurrence is a two-letter head `RJ`
or `VJ` followed by at least one digit, anywhere in the name; the value
of the occurrence at a position is the head plus the whole following
digit run (the regex `\d+` is greedy). -/

/-- The spec's "occurrence of a two-letter prefix (RJ or VJ) followed
by one or more digits" starting at character position `i`. -/
def occursAt (cs : List Char) (i : Nat) : Prop :=
  ∃ c d rest, cs.drop i = c :: 'J' :: d :: rest ∧ (c = 'R' ∨ c = 'V') ∧ d.isDigit

/-- The matched text of the occurrence starting at position `i`: the
two-character head and the maximal digit run after it. -/
def matchValueAt (cs : List Char) (i : Nat) : List Char :=
  (cs.drop i).take 2 ++ (cs.drop (i + 2)).takeWhile (·.isDigit)

/-! ## Lemmas about the identifier scan -/

theorem codeAt_of_shape {c d : Char} {rest : List Char}
    (hc : c = 'R' ∨ c = 'V') (hd : d.isDigit) :
    codeAt (c :: 'J' :: d :: rest) =
      some (c :: 'J' :: d :: rest.takeWhile (·.isDigit)) := by
  rcases hc with h | h <;> subst h <;> simp [codeAt, hd]

theorem codeAt_shape {l m : List Char} (h : codeAt l = some m) :
    ∃ c d rest, l = c :: 'J' :: d :: rest ∧ (c = 'R' ∨ c = 'V') ∧ d.isDigit ∧
      m = c :: 'J' :: d :: rest.takeWhile (·.isDigit) := by
  match l with
  | [] => simp [codeAt] at h
  | [c] => simp [codeAt] at h
  | [c, j] => simp [codeAt] at h
  | c :: j :: d :: rest =>
    by_cases hc : (c = 'R' ∨ c = 'V') ∧ j = 'J' ∧ d.isDigit
    · obtain ⟨h1, h2, h3⟩ := hc
      subst h2
      rw [codeAt_of_shape h1 h3] at h
      exact ⟨c, d, rest, rfl, h1, h3, (Option.some.injEq _ _ ▸ h).symm⟩
    · simp only [codeAt, if_neg hc] at h
      exact Option.noConfusion h

/-- The spec's occurrence predicate holds at `i` iff the regex's match
attempt at position `i` succeeds. -/
theorem occursAt_iff_codeAt (cs : List Char) (i : Nat) :
    occursAt cs i ↔ (codeAt (cs.drop i)).isSome := by
  constructor
  · rintro ⟨c, d, rest, hdrop, hc, hd⟩
    rw [hdrop, codeAt_of_shape hc hd]
    rfl
  · intro h
    obtain ⟨m, hm⟩ := Option.isSome_iff_exists.mp h
    obtain ⟨c, d, rest, hdrop, hc, hd, -⟩ := codeAt_shape hm
    exact ⟨c, d, rest, hdrop, hc, hd⟩

theorem codeAt_val {cs : List Char} {i : Nat} {m : List Char}
    (h : codeAt (cs.drop i) = some m) : m = matchValueAt cs i := by
  obtain ⟨c, d, rest, hdrop, hc, hd, hm⟩ := codeAt_shape h
  have h2 : cs.drop (i + 2) = d :: rest := by
    have h3 := List.drop_drop 2 i cs
    rw [hdrop] at h3
    simpa [Nat.add_comm] using h3.symm
  rw [matchValueAt, hdrop, h2, hm]
  simp [List.takeWhile_cons, hd]

theorem searchCode_eq_none (cs : List Char) :
    searchCode cs = none ↔ ∀ i, codeAt (cs.drop i) = none := by
  induction cs with
  | nil =>
      simp [searchCode, codeAt]
  | cons c rest ih =>
      rw [searchCode]
      cases h : codeAt (c :: rest) with
      | some m =>
          simp only [reduceCtorEq, false_iff, not_forall]
          exact ⟨0, by simp [h]⟩
      | none =>
          simp only [ih]
          constructor
          · intro hall i
            match i with
            | 0 => simpa using h
            | i + 1 => simpa using hall i
          · intro hall i
            simpa using hall (i + 1)

theorem searchCode_some_first {cs m : List Char} (h : searchCode cs = some m) :
    ∃ i, codeAt (cs.drop i) = some m ∧ ∀ j, j < i → codeAt (cs.drop j) = none := by
  induction cs with
  | nil => simp [searchCode] at h
  | cons c rest ih =>
      rw [searchCode] at h
      cases hc : codeAt (c :: rest) with
      | some m' =>
          rw [hc] at h
          refine ⟨0, ?_, by omega⟩
          simpa [hc] using h
      | none =>
          rw [hc] at h
          obtain ⟨i, hi, hj⟩ := ih h
          refine ⟨i + 1, by simpa using hi, ?_⟩
          intro j hji
          match j with
          | 0 => simpa using hc
          | j + 1 => simpa using hj j (by omega)

/-- **C4**: for every folder name containing an occurrence of `RJ` or
`VJ` followed by one or more digits, `extract_game_code` returns
exactly the first (leftmost, digit-greedy) such occurrence, which may
start anywhere in the name; for a name with no occurrence it returns
nothing. -/
theorem extract_game_code_first_match (s : String) :
    (extract_game_code s = none ↔ ∀ i, ¬ occursAt s.toList i) ∧
    (∀ r, extract_game_code s = some r →
      ∃ i, occursAt s.toList i ∧ (∀ j, j < i → ¬ occursAt s.toList j) ∧
        r = ⟨matchValueAt s.toList i⟩) := by
  constructor
  · rw [extract_game_code, Option.map_eq_none', searchCode_eq_none]
    constructor
    · intro h i
      rw [occursAt_iff_codeAt, h i]
      simp
    · intro h i
      have h2 := h i
      rw [occursAt_iff_codeAt] at h2
      exact Option.not_isSome_iff_eq_none.mp h2
  · intro r hr
    rw [extract_game_code, Option.map_eq_some'] at hr
    obtain ⟨m, hm, hrm⟩ := hr
    obtain ⟨i, hi, hlt⟩ := searchCode_some_first hm
    refine ⟨i, ?_, ?_, ?_⟩
    · rw [occursAt_iff_codeAt, hi]
      rfl
    · intro j hj
      rw [occursAt_iff_codeAt, hlt j hj]
      simp
    · rw [← hrm, codeAt_val hi]

/-- Witness for C4 at the spec's own example `"RJ123456_Title"`. -/
theorem extract_game_code_first_match_witness :
    ∃ i, occursAt "RJ123456_Title".toList i ∧
      (∀ j, j < i → ¬ occursAt "RJ123456_Title".toList j) ∧
      "RJ123456" = (⟨matchValueAt "RJ123456_Title".toList i⟩ : String) :=
  (extract_game_code_first_match "RJ123456_Title").2 "RJ123456" (by decide)

/-! ## Lemmas for prefix safety (C9) -/

theorem pyPrefix2_mk_cons (c j : Char) (l : List Char) :
    pyPrefix2 ⟨c :: j :: l⟩ = ⟨[c, j]⟩ := rfl

/-- Every identifier the extractor produces starts with `RJ` or `VJ`. -/
theorem extract_code_head {name code : String}
    (h : extract_game_code name = some code) :
    pyPrefix2 code = "RJ" ∨ pyPrefix2 code = "VJ" := by
  rw [extract_game_code, Option.map_eq_some'] at h
  obtain ⟨m, hm, hcm⟩ := h
  obtain ⟨i, hi, -⟩ := searchCode_some_first hm
  obtain ⟨c, d, rest, -, hc, -, hmv⟩ := codeAt_shape hi
  subst hcm
  subst hmv
  rcases hc with h | h <;> subst h
  · left
    rw [pyPrefix2_mk_cons]
  · right
    rw [pyPrefix2_mk_cons]

theorem dictGet_base_urls_isSome {k : String} (h : k = "RJ" ∨ k = "VJ") :
    (dictGet base_urls k).isSome := by
  rcases h with h | h <;> subst h <;> decide

theorem dictGet_api_urls_isSome {k : String} (h : k = "RJ" ∨ k = "VJ") :
    (dictGet api_urls k).isSome := by
  rcases h with h | h <;> subst h <;> decide

/-- With a registered head, `scrape_game_info` never raises the
`KeyError` (`.error`) of the untried `base_urls[prefix]` lookup. -/
theorem scrape_ok (env : Env) (gc fp : String) (fs : Fs)
    (h : (dictGet base_urls (pyPrefix2 gc)).isSome) :
    ∃ res, (scrape_game_info env gc fp fs).1 = .ok res := by
  obtain ⟨tmpl, htmpl⟩ := Option.isSome_iff_exists.mp h
  rcases hf : env.htmlFetch (pyFormat tmpl gc) with - | soup
  · simp only [scrape_game_info, htmpl, hf]
    exact ⟨none, rfl⟩
  · rcases ht : soup.title with - | t
    · simp only [scrape_game_info, htmpl, hf, ht]
      exact ⟨none, rfl⟩
    · simp only [scrape_game_info, htmpl, hf, ht]
      exact ⟨_, rfl⟩

theorem process_one_ok (env : Env) (np : String → String) (st : ScanState)
    (gp name : String) : ∃ r, process_one env np st gp name = .ok r := by
  by_cases hd : ¬ env.isDir (np (pathJoin gp name)) = true
  · simp only [process_one, if_pos hd]
    exact ⟨_, rfl⟩
  · by_cases hm : np (pathJoin gp name) ∈ st.registered
    · simp only [process_one, if_neg hd, if_pos hm]
      exact ⟨_, rfl⟩
    · cases hx : extract_game_code name with
      | none =>
          simp only [process_one, if_neg hd, if_neg hm, hx]
          exact ⟨_, rfl⟩
      | some gc =>
          obtain ⟨res, hres⟩ :=
            scrape_ok env gc (np (pathJoin gp name)) st.fs
              (dictGet_base_urls_isSome (extract_code_head hx))
          rcases hs : scrape_game_info env gc (np (pathJoin gp name)) st.fs with
            ⟨r1, fs2, evs⟩
          rw [hs] at hres
          simp only at hres
          subst hres
          cases res with
          | none =>
              simp only [process_one, if_neg hd, if_neg hm, hx, hs]
              exact ⟨_, rfl⟩
          | some info =>
              by_cases he :
                  get_exe_files (env.walkFiles (np (pathJoin gp name))) = []
              · simp only [process_one, if_neg hd, if_neg hm, hx, hs, if_pos he]
                exact ⟨_, rfl⟩
              · simp only [process_one, if_neg hd, if_neg hm, hx, hs, if_neg he]
                exact ⟨_, rfl⟩

theorem processNames_ok (env : Env) (np : String → String) (gp : String) :
    ∀ names st, ∃ r, processNames env np gp st names = .ok r := by
  intro names
  induction names with
  | nil => exact fun st => ⟨_, rfl⟩
  | cons n rest ih =>
      intro st
      obtain ⟨⟨st1, o⟩, h1⟩ := process_one_ok env np st gp n
      obtain ⟨⟨st2, outs⟩, h2⟩ := ih st1
      refine ⟨(st2, o.elim outs (· :: outs)), ?_⟩
      simp only [processNames, h1, h2]

theorem processPaths_ok (env : Env) (np : String → String) :
    ∀ gps st, ∃ r, processPaths env np st gps = .ok r := by
  intro gps
  induction gps with
  | nil => exact fun st => ⟨_, rfl⟩
  | cons gp rest ih =>
      intro st
      rw [processPaths]
      split_ifs with h1
      · obtain ⟨⟨st1, outs⟩, hn⟩ := processNames_ok env np gp (env.listDir gp) st
        obtain ⟨⟨st2, outs'⟩, h2⟩ := ih st1
        simp only [hn, h2]
        exact ⟨_, rfl⟩
      · exact ih st

theorem process_folders_ok (env : Env) (np : String → String)
    (dbPaths game_paths : List String) (fs : Fs) :
    ∃ r, process_folders env np dbPaths game_paths fs = .ok r :=
  processPaths_ok env np game_paths _

/-- A minimal concrete oracle environment, used to instantiate
universally quantified theorems. -/
def envTriv : Env :=
  { htmlFetch := fun _ => none, apiFetch := fun _ => none,
    netImg := fun _ => none, dirExists := fun _ => false,
    isDir := fun _ => false, listDir := fun _ => [],
    walkFiles := fun _ => [] }

/-- **C9** (implicit): every identifier the extractor produces begins
with `RJ` or `VJ`; both URL-template tables are keyed exactly by
`RJ` and `VJ`, so the prefix lookups always succeed for extracted
identifiers, and the `KeyError` branch is unreachable on the scan
path — a scan run never propagates that exception. -/
theorem extractor_prefix_lookup_safety :
    (base_urls.map Prod.fst = ["RJ", "VJ"] ∧
      api_urls.map Prod.fst = ["RJ", "VJ"]) ∧
    (∀ name code, extract_game_code name = some code →
      (pyPrefix2 code = "RJ" ∨ pyPrefix2 code = "VJ") ∧
      (dictGet base_urls (pyPrefix2 code)).isSome ∧
      (dictGet api_urls (pyPrefix2 code)).isSome) ∧
    (∀ env npath dbPaths game_paths fs,
      ∃ r, process_folders env npath dbPaths game_paths fs = .ok r) := by
  refine ⟨⟨by decide, by decide⟩, ?_, ?_⟩
  · intro name code h
    have hp := extract_code_head h
    exact ⟨hp, dictGet_base_urls_isSome hp, dictGet_api_urls_isSome hp⟩
  · intro env npath dbPaths game_paths fs
    exact process_folders_ok env npath dbPaths game_paths fs

/-- Witness for C9 at the identifier `"RJ42"` extracted from
`"RJ42_g"` and a concrete scan run. -/
theorem extractor_prefix_lookup_safety_witness :
    ((pyPrefix2 "RJ42" = "RJ" ∨ pyPrefix2 "RJ42" = "VJ") ∧
      (dictGet base_urls (pyPrefix2 "RJ42")).isSome ∧
      (dictGet api_urls (pyPrefix2 "RJ42")).isSome) ∧
    ∃ r, process_folders envTriv (fun s => s) [] ["G"] (fun _ => none) = .ok r :=
  ⟨extractor_prefix_lookup_safety.2.1 "RJ42_g" "RJ42" (by decide),
   extractor_prefix_lookup_safety.2.2 envTriv (fun s => s) [] ["G"] (fun _ => none)⟩

/-! ## Report projections (spec-side, for C3) -/

/-- Names of the outcomes a run classified `skipped`. -/
def skippedNames (outs : List FolderOutcome) : List String :=
  (outs.filter fun o => o.classification == .skipped).map (·.name)

/-- Paths of the outcomes a run classified `noIdentifier` or
`enrichmentFailed`. -/
def invalidPaths (outs : List FolderOutcome) : List String :=
  (outs.filter fun o =>
    o.classification == .noIdentifier || o.classification == .enrichmentFailed).map
    (·.path)

/-- Names of the outcomes a run classified `noExecutable`. -/
def noExeNames (outs : List FolderOutcome) : List String :=
  (outs.filter fun o => o.classification == .noExecutable).map (·.name)

theorem skippedNames_append (a b : List FolderOutcome) :
    skippedNames (a ++ b) = skippedNames a ++ skippedNames b := by
  simp [skippedNames]

theorem invalidPaths_append (a b : List FolderOutcome) :
    invalidPaths (a ++ b) = invalidPaths a ++ invalidPaths b := by
  simp [invalidPaths]

theorem noExeNames_append (a b : List FolderOutcome) :
    noExeNames (a ++ b) = noExeNames a ++ noExeNames b := by
  simp [noExeNames]

theorem option_elim_cons {α : Type} (o : Option α) (l : List α) :
    o.elim l (· :: l) = o.toList ++ l := by
  cases o <;> rfl

/-! ## Cover path shape (for C10 and the row invariant) -/

theorem cover_ne_empty (fp : String) :
    pathJoin (pathJoin fp "thumb_imgs") "00.jpg" ≠ "" := by
  intro h
  have h2 := congrArg String.length h
  rw [pathJoin, pathJoin] at h2
  simp [String.length_append] at h2
  exact absurd h2.2 (by decide)

theorem cover_for_shape (netImg : String → Option Nat) (urls : List String)
    (fp : String) (fs : Fs) :
    (cover_for netImg urls fp fs).1 = "" ∨
      (cover_for netImg urls fp fs).1 =
        pathJoin (pathJoin fp "thumb_imgs") "00.jpg" := by
  unfold cover_for
  split_ifs with h1
  · simp
  · by_cases h2 : (fs (pathJoin (pathJoin fp "thumb_imgs") "00.jpg")).isSome = true <;>
      simp [h2]

theorem cover_for_empty_iff (netImg : String → Option Nat) (urls : List String)
    (fp : String) (fs : Fs) :
    ((cover_for netImg urls fp fs).1 = "" ↔ urls = []) := by
  unfold cover_for
  split_ifs with h1
  · simp [h1]
  · by_cases h2 : (fs (pathJoin (pathJoin fp "thumb_imgs") "00.jpg")).isSome = true <;>
      simp [h1, h2, cover_ne_empty fp]

/-- The cover path of a successfully scraped entry is either empty or
the fixed `00.jpg` path under the folder's cache directory. -/
theorem scrape_info_cover {env : Env} {gc fp : String} {fs : Fs}
    {info : GameInfo} {fs' : Fs} {evs : List ScanEvent}
    (h : scrape_game_info env gc fp fs = (.ok (some info), fs', evs)) :
    info.cover_image = "" ∨
      info.cover_image = pathJoin (pathJoin fp "thumb_imgs") "00.jpg" := by
  simp only [scrape_game_info] at h
  rcases hdict : dictGet base_urls (pyPrefix2 gc) with - | tmpl
  · simp [hdict] at h
  · simp only [hdict] at h
    rcases hf : env.htmlFetch (pyFormat tmpl gc) with - | soup
    · simp [hf] at h
    · simp only [hf] at h
      rcases ht : soup.title with - | t
      · simp [ht] at h
      · simp only [ht] at h
        have h1 := congrArg (fun p => p.1) h
        simp only [Except.ok.injEq, Option.some.injEq] at h1
        subst h1
        exact cover_for_shape env.netImg (soup.sliderData.getD []) fp fs

/-! ## The per-folder step invariant

Shared by the run-level theorems: the registered set only grows; a row
is only inserted for a path that was not registered at the time, with a
non-empty executable list and the canonical cover shape; a folder whose
path is registered ends `skipped` with no network events; and the
report lists grow exactly by the projections of this folder's
outcome. -/

theorem process_one_inv {env : Env} {np : String → String} {st : ScanState}
    {gp name : String} {st' : ScanState} {o : Option FolderOutcome}
    (h : process_one env np st gp name = .ok (st', o)) :
    (∀ x, x ∈ st.registered → x ∈ st'.registered) ∧
    (∀ r, r ∈ st'.rows → r ∈ st.rows ∨
      (r.folder_path ∉ st.registered ∧ r.exe_files ≠ [] ∧
        (r.cover_image = "" ∨
          r.cover_image = pathJoin (pathJoin r.folder_path "thumb_imgs") "00.jpg"))) ∧
    (∀ out, o = some out → out.path ∈ st.registered →
      out.classification = .skipped ∧ out.events = []) ∧
    st'.skipped = st.skipped ++ skippedNames o.toList ∧
    st'.invalid = st.invalid ++ invalidPaths o.toList ∧
    st'.no_exe = st.no_exe ++ noExeNames o.toList := by
  by_cases hd : ¬ env.isDir (np (pathJoin gp name)) = true
  · simp only [process_one, if_pos hd, Except.ok.injEq, Prod.mk.injEq] at h
    obtain ⟨hst, ho⟩ := h
    subst hst
    subst ho
    refine ⟨fun x hx => hx, fun r hr => .inl hr, by simp, ?_, ?_, ?_⟩ <;>
      simp [skippedNames, invalidPaths, noExeNames]
  · by_cases hm : np (pathJoin gp name) ∈ st.registered
    · simp only [process_one, if_neg hd, if_pos hm, Except.ok.injEq,
        Prod.mk.injEq] at h
      obtain ⟨hst, ho⟩ := h
      subst hst
      subst ho
      refine ⟨fun x hx => hx, fun r hr => .inl hr, ?_, ?_, ?_, ?_⟩
      · intro out hout hmem
        cases hout
        exact ⟨rfl, rfl⟩
      all_goals simp [skippedNames, invalidPaths, noExeNames]
    · cases hx : extract_game_code name with
      | none =>
          simp only [process_one, if_neg hd, if_neg hm, hx, Except.ok.injEq,
            Prod.mk.injEq] at h
          obtain ⟨hst, ho⟩ := h
          subst hst
          subst ho
          refine ⟨fun x hx => hx, fun r hr => .inl hr, ?_, ?_, ?_, ?_⟩
          · intro out hout hmem
            cases hout
            exact absurd hmem hm
          all_goals simp [skippedNames, invalidPaths, noExeNames]
      | some gc =>
          obtain ⟨res, hres⟩ :=
            scrape_ok env gc (np (pathJoin gp name)) st.fs
              (dictGet_base_urls_isSome (extract_code_head hx))
          rcases hs : scrape_game_info env gc (np (pathJoin gp name)) st.fs with
            ⟨r1, fs2, evs⟩
          rw [hs] at hres
          simp only at hres
          subst hres
          cases res with
          | none =>
              simp only [process_one, if_neg hd, if_neg hm, hx, hs,
                Except.ok.injEq, Prod.mk.injEq] at h
              obtain ⟨hst, ho⟩ := h
              subst hst
              subst ho
              refine ⟨fun x hx => hx, fun r hr => .inl hr, ?_, ?_, ?_, ?_⟩
              · intro out hout hmem
                cases hout
                exact absurd hmem hm
              all_goals simp [skippedNames, invalidPaths, noExeNames]
          | some info =>
              by_cases he :
                  get_exe_files (env.walkFiles (np (pathJoin gp name))) = []
              · simp only [process_one, if_neg hd, if_neg hm, hx, hs,
                  if_pos he, Except.ok.injEq, Prod.mk.injEq] at h
                obtain ⟨hst, ho⟩ := h
                subst hst
                subst ho
                refine ⟨fun x hx => hx, fun r hr => .inl hr, ?_, ?_, ?_, ?_⟩
                · intro out hout hmem
                  cases hout
                  exact absurd hmem hm
                all_goals simp [skippedNames, invalidPaths, noExeNames]
              · simp only [process_one, if_neg hd, if_neg hm, hx, hs,
                  if_neg he, Except.ok.injEq, Prod.mk.injEq] at h
                obtain ⟨hst, ho⟩ := h
                subst hst
                subst ho
                refine ⟨?_, ?_, ?_, ?_, ?_, ?_⟩
                · intro x hxr
                  exact List.mem_append.mpr (.inl hxr)
                · intro r hr
                  rcases List.mem_append.mp hr with hr | hr
                  · exact .inl hr
                  · right
                    rcases List.mem_singleton.mp hr with rfl
                    exact ⟨hm, he, scrape_info_cover hs⟩
                · intro out hout hmem
                  cases hout
                  exact absurd hmem hm
                all_goals simp [skippedNames, invalidPaths, noExeNames]

/-- The step invariant, lifted over one game path's folder list. -/
theorem processNames_inv {env : Env} {np : String → String} {gp : String} :
    ∀ {names : List String} {st st' : ScanState} {outs : List FolderOutcome},
    processNames env np gp st names = .ok (st', outs) →
    (∀ x, x ∈ st.registered → x ∈ st'.registered) ∧
    (∀ r, r ∈ st'.rows → r ∈ st.rows ∨
      (r.folder_path ∉ st.registered ∧ r.exe_files ≠ [] ∧
        (r.cover_image = "" ∨
          r.cover_image = pathJoin (pathJoin r.folder_path "thumb_imgs") "00.jpg"))) ∧
    (∀ out, out ∈ outs → out.path ∈ st.registered →
      out.classification = .skipped ∧ out.events = []) ∧
    st'.skipped = st.skipped ++ skippedNames outs ∧
    st'.invalid = st.invalid ++ invalidPaths outs ∧
    st'.no_exe = st.no_exe ++ noExeNames outs := by
  intro names
  induction names with
  | nil =>
      intro st st' outs h
      simp only [processNames, Except.ok.injEq, Prod.mk.injEq] at h
      obtain ⟨hst, ho⟩ := h
      subst hst
      subst ho
      exact ⟨fun x hx => hx, fun r hr => .inl hr, by simp,
        by simp [skippedNames], by simp [invalidPaths], by simp [noExeNames]⟩
  | cons n rest ih =>
      intro st st' outs h
      rw [processNames] at h
      rcases h1 : process_one env np st gp n with e | ⟨st1, o⟩ <;> rw [h1] at h <;>
        dsimp only at h
      · exact absurd h (by simp)
      · rcases h2 : processNames env np gp st1 rest with e | ⟨st2, outs2⟩ <;>
          rw [h2] at h <;> dsimp only at h
        · exact absurd h (by simp)
        · simp only [Except.ok.injEq, Prod.mk.injEq] at h
          obtain ⟨hst, ho⟩ := h
          subst hst
          subst ho
          obtain ⟨sreg, srows, sout, ssk, sinv, snx⟩ := process_one_inv h1
          obtain ⟨ireg, irows, iout, isk, iinv, inx⟩ := ih h2
          refine ⟨fun x hx => ireg x (sreg x hx), ?_, ?_, ?_, ?_, ?_⟩
          · intro r hr
            rcases irows r hr with hr1 | ⟨hr1, hr2, hr3⟩
            · exact srows r hr1
            · exact .inr ⟨fun hc => hr1 (sreg _ hc), hr2, hr3⟩
          · intro out hout hmem
            rw [option_elim_cons] at hout
            rcases List.mem_append.mp hout with hout | hout
            · cases o with
              | none => simp at hout
              | some o0 =>
                  rcases List.mem_singleton.mp (by simpa using hout) with rfl
                  exact sout out rfl hmem
            · exact iout out hout (sreg _ hmem)
          all_goals
            rw [option_elim_cons]
          · rw [skippedNames_append, isk, ssk, List.append_assoc]
          · rw [invalidPaths_append, iinv, sinv, List.append_assoc]
          · rw [noExeNames_append, inx, snx, List.append_assoc]

/-- The step invariant, lifted over the whole run. -/
theorem processPaths_inv {env : Env} {np : String → String} :
    ∀ {gps : List String} {st st' : ScanState} {outs : List FolderOutcome},
    processPaths env np st gps = .ok (st', outs) →
    (∀ x, x ∈ st.registered → x ∈ st'.registered) ∧
    (∀ r, r ∈ st'.rows → r ∈ st.rows ∨
      (r.folder_path ∉ st.registered ∧ r.exe_files ≠ [] ∧
        (r.cover_image = "" ∨
          r.cover_image = pathJoin (pathJoin r.folder_path "thumb_imgs") "00.jpg"))) ∧
    (∀ out, out ∈ outs → out.path ∈ st.registered →
      out.classification = .skipped ∧ out.events = []) ∧
    st'.skipped = st.skipped ++ skippedNames outs ∧
    st'.invalid = st.invalid ++ invalidPaths outs ∧
    st'.no_exe = st.no_exe ++ noExeNames outs := by
  intro gps
  induction gps with
  | nil =>
      intro st st' outs h
      simp only [processPaths, Except.ok.injEq, Prod.mk.injEq] at h
      obtain ⟨hst, ho⟩ := h
      subst hst
      subst ho
      exact ⟨fun x hx => hx, fun r hr => .inl hr, by simp,
        by simp [skippedNames], by simp [invalidPaths], by simp [noExeNames]⟩
  | cons gp rest ih =>
      intro st st' outs h
      rw [processPaths] at h
      split_ifs at h with hex
      · rcases h1 : processNames env np gp st (env.listDir gp) with e | ⟨st1, outs1⟩ <;>
          rw [h1] at h <;> dsimp only at h
        · exact absurd h (by simp)
        · rcases h2 : processPaths env np st1 rest with e | ⟨st2, outs2⟩ <;>
            rw [h2] at h <;> dsimp only at h
          · exact absurd h (by simp)
          · simp only [Except.ok.injEq, Prod.mk.injEq] at h
            obtain ⟨hst, ho⟩ := h
            subst hst
            subst ho
            obtain ⟨sreg, srows, sout, ssk, sinv, snx⟩ := processNames_inv h1
            obtain ⟨ireg, irows, iout, isk, iinv, inx⟩ := ih h2
            refine ⟨fun x hx => ireg x (sreg x hx), ?_, ?_, ?_, ?_, ?_⟩
            · intro r hr
              rcases irows r hr with hr1 | ⟨hr1, hr2, hr3⟩
              · exact srows r hr1
              · exact .inr ⟨fun hc => hr1 (sreg _ hc), hr2, hr3⟩
            · intro out hout hmem
              rcases List.mem_append.mp hout with hout | hout
              · exact sout out hout hmem
              · exact iout out hout (sreg _ hmem)
            · rw [skippedNames_append, isk, ssk, List.append_assoc]
            · rw [invalidPaths_append, iinv, sinv, List.append_assoc]
            · rw [noExeNames_append, inx, snx, List.append_assoc]
      · exact ih h

/-- The step invariant at the start state of `process_folders`. -/
theorem process_folders_inv {env : Env} {np : String → String}
    {dbPaths game_paths : List String} {fs : Fs}
    {st : ScanState} {outs : List FolderOutcome}
    (h : process_folders env np dbPaths game_paths fs = .ok (st, outs)) :
    (∀ x, x ∈ dbPaths.map np → x ∈ st.registered) ∧
    (∀ r, r ∈ st.rows →
      r.folder_path ∉ dbPaths.map np ∧ r.exe_files ≠ [] ∧
        (r.cover_image = "" ∨
          r.cover_image = pathJoin (pathJoin r.folder_path "thumb_imgs") "00.jpg")) ∧
    (∀ out, out ∈ outs → out.path ∈ dbPaths.map np →
      out.classification = .skipped ∧ out.events = []) ∧
    st.skipped = skippedNames outs ∧
    st.invalid = invalidPaths outs ∧
    st.no_exe = noExeNames outs := by
  obtain ⟨ireg, irows, iout, isk, iinv, inx⟩ := processPaths_inv h
  refine ⟨fun x hx => ireg x hx, ?_, fun out ho hm => iout out ho hm,
    by simpa using isk, by simpa using iinv, by simpa using inx⟩
  intro r hr
  rcases irows r hr with hr1 | hr1
  · simp at hr1
  · exact hr1

end DLGV

namespace DLGV

/-! ## C7 — thumbnail resize -/

/-- **C7**: for positive source and target dimensions the resized
dimensions never exceed the target box, and the output preserves the
source ratio up to integer truncation (one side is exact, the other is
the floor of the proportional value); in particular a 4000×2000 source
at target 200×100 yields exactly 200×100. -/
theorem resize_maintains_aspect_within_box (w h tw th : Nat)
    (hw : 0 < w) (hh : 0 < h) (htw : 0 < tw) (hth : 0 < th) :
    (resize_image_maintain_aspect (w, h) (tw, th)).1 ≤ tw ∧
    (resize_image_maintain_aspect (w, h) (tw, th)).2 ≤ th ∧
    ((resize_image_maintain_aspect (w, h) (tw, th)).2 =
        (⌊(((resize_image_maintain_aspect (w, h) (tw, th)).1 : ℚ) * h) / w⌋).toNat ∨
      (resize_image_maintain_aspect (w, h) (tw, th)).1 =
        (⌊(((resize_image_maintain_aspect (w, h) (tw, th)).2 : ℚ) * w) / h⌋).toNat) ∧
    resize_image_maintain_aspect (4000, 2000) (200, 100) = (200, 100) := by
  have hwq : (0 : ℚ) < w := by exact_mod_cast hw
  have hhq : (0 : ℚ) < h := by exact_mod_cast hh
  have hthq : (0 : ℚ) < th := by exact_mod_cast hth
  have hconc : resize_image_maintain_aspect (4000, 2000) (200, 100) = (200, 100) := by
    rw [resize_image_maintain_aspect]
    norm_num
    decide
  by_cases hA : ((w : ℚ) / h) > ((tw : ℚ) / th)
  · have hred : resize_image_maintain_aspect (w, h) (tw, th) =
        (tw, (⌊(tw : ℚ) / ((w : ℚ) / h)⌋).toNat) := by
      rw [resize_image_maintain_aspect]
      simp only [if_pos hA]
    have hx : (tw : ℚ) / ((w : ℚ) / h) = ((tw : ℚ) * h) / w :=
      div_div_eq_mul_div _ _ _
    have hcross : (tw : ℚ) * h < w * th := (div_lt_div_iff₀ hthq hhq).mp hA
    have hlt : ((tw : ℚ) * h) / w < th := by
      rw [div_lt_iff₀ hwq]
      linarith
    have hfl : ⌊(tw : ℚ) / ((w : ℚ) / h)⌋ < (th : ℤ) := by
      rw [hx]
      exact Int.floor_lt.mpr (by exact_mod_cast hlt)
    rw [hred]
    refine ⟨le_refl tw, ?_, .inl ?_, hconc⟩
    · exact Int.toNat_le.mpr (le_of_lt hfl)
    · dsimp only
      rw [hx]
  · have hred : resize_image_maintain_aspect (w, h) (tw, th) =
        ((⌊(th : ℚ) * ((w : ℚ) / h)⌋).toNat, th) := by
      rw [resize_image_maintain_aspect]
      simp only [if_neg hA]
    have hx : (th : ℚ) * ((w : ℚ) / h) = ((th : ℚ) * w) / h :=
      (mul_div_assoc _ _ _).symm
    have hcross : (w : ℚ) * th ≤ tw * h := (div_le_div_iff₀ hhq hthq).mp (not_lt.mp hA)
    have hle : ((th : ℚ) * w) / h ≤ tw := by
      rw [div_le_iff₀ hhq]
      linarith
    have hfl : ⌊(th : ℚ) * ((w : ℚ) / h)⌋ ≤ (tw : ℤ) := by
      rw [hx]
      have h2 : ⌊((th : ℚ) * w) / h⌋ ≤ ⌊(tw : ℚ)⌋ := Int.floor_le_floor hle
      simpa using h2
    rw [hred]
    refine ⟨?_, le_refl th, .inr ?_, hconc⟩
    · exact Int.toNat_le.mpr hfl
    · dsimp only
      rw [hx]

/-- Witness for C7 at the spec's own 4000×2000 → 200×100 example. -/
theorem resize_maintains_aspect_within_box_witness :
    (resize_image_maintain_aspect (4000, 2000) (200, 100)).1 ≤ 200 ∧
    (resize_image_maintain_aspect (4000, 2000) (200, 100)).2 ≤ 100 ∧
    ((resize_image_maintain_aspect (4000, 2000) (200, 100)).2 =
        (⌊(((resize_image_maintain_aspect (4000, 2000) (200, 100)).1 : ℚ) * 2000) / 4000⌋).toNat ∨
      (resize_image_maintain_aspect (4000, 2000) (200, 100)).1 =
        (⌊(((resize_image_maintain_aspect (4000, 2000) (200, 100)).2 : ℚ) * 4000) / 2000⌋).toNat) ∧
    resize_image_maintain_aspect (4000, 2000) (200, 100) = (200, 100) :=
  resize_maintains_aspect_within_box 4000 2000 200 100
    (by norm_num) (by norm_num) (by norm_num) (by norm_num)

/-! ## C8 — prefetch worker drops requests for missing files -/

/-- **C8**: when a worker dequeues a request whose source path does not
exist, it delivers nothing for that request, raises no error, and
processes the remaining requests exactly as it would have without it. -/
theorem loader_drops_missing_silently (fsE : String → Bool)
    (openImg : String → Option (Nat × Nat)) (t : ImgTask)
    (rest : List ImgTask) (h : fsE t.path = false) :
    image_loader_thread fsE openImg (t :: rest) =
      image_loader_thread fsE openImg rest := by
  rw [image_loader_thread, if_pos (by simp [h])]

/-- Witness for C8 on a concrete one-request queue. -/
theorem loader_drops_missing_silently_witness :
    image_loader_thread (fun _ => false) (fun _ => none)
        [⟨0, "missing.jpg", (250, 180)⟩] =
      image_loader_thread (fun _ => false) (fun _ => none) [] :=
  loader_drops_missing_silently (fun _ => false) (fun _ => none)
    ⟨0, "missing.jpg", (250, 180)⟩ [] rfl

end DLGV


namespace DLGV

/-! ## C5 — AssetCache idempotent download -/

theorem string_append_left_cancel {a b c : String} (h : a ++ b = a ++ c) :
    b = c := by
  have h2 := congrArg String.data h
  simp only [String.data_append] at h2
  exact congrArg String.mk (List.append_cancel_left h2)

theorem string_append_right_cancel {a b c : String} (h : a ++ c = b ++ c) :
    a = b := by
  have h2 := congrArg String.data h
  simp only [String.data_append] at h2
  exact congrArg String.mk (List.append_cancel_right h2)

theorem pad2_inj_lt5 {i j : Nat} (hi : i < 5) (hj : j < 5) (hne : i ≠ j) :
    pad2 i ≠ pad2 j := by
  interval_cases i <;> interval_cases j <;> first | exact absurd rfl hne | decide

theorem imgPath_inj (fp : String) {i j : Nat} (hi : i < 5) (hj : j < 5)
    (hne : i ≠ j) : imgPath fp i ≠ imgPath fp j := by
  intro h
  apply pad2_inj_lt5 hi hj hne
  exact string_append_right_cancel (string_append_left_cancel h)

/-- `enumerate(urls)` starting at `start` (spec-side indexing). -/
def idxFrom (start : Nat) : List String → List (Nat × String)
  | [] => []
  | u :: rest => (start, u) :: idxFrom (start + 1) rest

theorem idxFrom_mem : ∀ {l : List String} {s : Nat} {q : Nat × String},
    q ∈ idxFrom s l → s ≤ q.1 ∧ q.1 < s + l.length := by
  intro l
  induction l with
  | nil => intro s q hq; simp [idxFrom] at hq
  | cons u rest ih =>
      intro s q hq
      rcases List.mem_cons.mp hq with hq | hq
      · subst hq
        refine ⟨le_refl _, ?_⟩
        rw [List.length_cons]
        omega
      · have h2 := ih hq
        rw [List.length_cons]
        omega

/-- Full characterization of the download loop on a window of at most
5 indices: the fetches issued are exactly those for URLs whose
destination index was missing on entry (with the scheme-fixed URL),
pre-existing files keep their bytes, and only destination paths of the
window's indices are ever written. -/
theorem downloadLoop_run (netImg : String → Option Nat) (fp : String) :
    ∀ (urls : List String) (start : Nat) (fs : Fs),
      start + urls.length ≤ 5 →
      ((downloadLoop netImg fp start urls fs).2 =
        ((idxFrom start urls).filter fun p =>
          (fs (imgPath fp p.1)).isNone).map
          (fun p => ScanEvent.fetchImg p.1 (fixUrl p.2))) ∧
      (∀ p b, fs p = some b →
        (downloadLoop netImg fp start urls fs).1 p = some b) ∧
      (∀ p, (downloadLoop netImg fp start urls fs).1 p ≠ fs p →
        ∃ i, start ≤ i ∧ i < start + urls.length ∧ p = imgPath fp i) := by
  intro urls
  induction urls with
  | nil =>
      intro start fs hb
      exact ⟨by simp [downloadLoop, idxFrom], fun p b hp => hp,
        fun p hp => absurd rfl hp⟩
  | cons url rest ih =>
      intro start fs hb
      have hlen : (url :: rest).length = rest.length + 1 := rfl
      have hb' : (start + 1) + rest.length ≤ 5 := by
        rw [hlen] at hb
        omega
      rw [downloadLoop]
      by_cases hex : (fs (imgPath fp start)).isSome
      · rw [if_pos hex]
        obtain ⟨b0, hb0⟩ := Option.isSome_iff_exists.mp hex
        obtain ⟨ihe, ihp, ihw⟩ := ih (start + 1) fs hb'
        refine ⟨?_, ihp, ?_⟩
        · rw [ihe, idxFrom, List.filter_cons]
          simp [hb0]
        · intro p hp
          obtain ⟨i, hi1, hi2, hi3⟩ := ihw p hp
          exact ⟨i, by omega, by rw [hlen]; omega, hi3⟩
      · rw [if_neg hex]
        have hfs : fs (imgPath fp start) = none :=
          Option.not_isSome_iff_eq_none.mp hex
        rcases hnet : netImg (fixUrl url) with - | bytes
        · simp only [hnet]
          obtain ⟨ihe, ihp, ihw⟩ := ih (start + 1) fs hb'
          refine ⟨?_, ihp, ?_⟩
          · rw [idxFrom, List.filter_cons]
            simp [hfs, ihe]
          · intro p hp
            obtain ⟨i, hi1, hi2, hi3⟩ := ihw p hp
            exact ⟨i, by omega, by rw [hlen]; omega, hi3⟩
        · simp only [hnet]
          obtain ⟨ihe, ihp, ihw⟩ :=
            ih (start + 1)
              (fun p => if p = imgPath fp start then some bytes else fs p) hb'
          have hagree : ∀ q ∈ idxFrom (start + 1) rest,
              ((if imgPath fp q.1 = imgPath fp start then some bytes
                else fs (imgPath fp q.1)).isNone) =
                (fs (imgPath fp q.1)).isNone := by
            intro q hq
            obtain ⟨hq1, hq2⟩ := idxFrom_mem hq
            have hne : q.1 ≠ start := by omega
            have hpe : imgPath fp q.1 ≠ imgPath fp start :=
              imgPath_inj fp (by omega) (by omega) hne
            rw [if_neg hpe]
          have hcongr := List.filter_congr hagree
          refine ⟨?_, ?_, ?_⟩
          · rw [idxFrom, List.filter_cons]
            simp [hfs, ihe, hcongr]
          · intro p b hp
            have hne : p ≠ imgPath fp start := by
              intro hc
              rw [hc, hfs] at hp
              exact Option.noConfusion hp
            exact ihp p b ((if_neg hne).trans hp)
          · intro p hp
            by_cases hpp : p = imgPath fp start
            · exact ⟨start, le_refl start, by rw [hlen]; omega, hpp⟩
            · obtain ⟨i, hi1, hi2, hi3⟩ :=
                ihw p (fun hc => hp (hc.trans (if_neg hpp)))
              exact ⟨i, by omega, by rw [hlen]; omega, hi3⟩

end DLGV

namespace DLGV

/-- **C5**: fetch-and-store processes at most the first 5 candidate
URLs; it attempts exactly the indices (in order) whose destination file
`<folder_path>/thumb_imgs/<idx zero-padded to 2>.jpg` was missing on
entry, fetching the scheme-fixed URL; an index whose destination file
already exists triggers no fetch and keeps its bytes unchanged; and
nothing outside the first-5 destination paths is ever written. -/
theorem download_images_idempotent (netImg : String → Option Nat)
    (image_urls : List String) (folder_path : String) (fs : Fs) :
    ((download_images netImg image_urls folder_path fs).2 =
      ((idxFrom 0 (image_urls.take 5)).filter fun p =>
        (fs (imgPath folder_path p.1)).isNone).map
        (fun p => ScanEvent.fetchImg p.1 (fixUrl p.2))) ∧
    (∀ idx b, fs (imgPath folder_path idx) = some b →
      (download_images netImg image_urls folder_path fs).1
        (imgPath folder_path idx) = some b) ∧
    (∀ p, (download_images netImg image_urls folder_path fs).1 p ≠ fs p →
      ∃ i, i < 5 ∧ i < image_urls.length ∧ p = imgPath folder_path i) := by
  have hb : 0 + (image_urls.take 5).length ≤ 5 := by
    simp [List.length_take]
  obtain ⟨he, hpres, hw⟩ :=
    downloadLoop_run netImg folder_path (image_urls.take 5) 0 fs hb
  refine ⟨he, fun idx b h => hpres _ b h, ?_⟩
  intro p hp
  obtain ⟨i, -, hi2, hi3⟩ := hw p hp
  have hlen : (image_urls.take 5).length = min 5 image_urls.length :=
    List.length_take 5 image_urls
  rw [hlen] at hi2
  exact ⟨i, by omega, by omega, hi3⟩

/-- A file system pre-populated with `00.jpg` under folder `F`. -/
def fsPre : Fs := fun p => if p = imgPath "F" 0 then some 7 else none

/-- Witness for C5: with `00.jpg` pre-populated and six candidate
URLs, exactly indices 1–4 are attempted and the `00.jpg` bytes are left
unchanged. -/
theorem download_images_idempotent_witness :
    ((download_images (fun _ => none) ["a", "b", "c", "d", "e", "f"] "F"
        fsPre).2 =
      [ScanEvent.fetchImg 1 "https://b", ScanEvent.fetchImg 2 "https://c",
        ScanEvent.fetchImg 3 "https://d", ScanEvent.fetchImg 4 "https://e"]) ∧
    (download_images (fun _ => none) ["a", "b", "c", "d", "e", "f"] "F"
        fsPre).1 (imgPath "F" 0) = some 7 :=
  ⟨by decide,
   (download_images_idempotent (fun _ => none) ["a", "b", "c", "d", "e", "f"]
      "F" fsPre).2.1 0 7 (by decide)⟩

end DLGV

namespace DLGV

/-! ## C6 — MetadataSource failure characterization -/

/-- **C6**: for a supported identifier head, the metadata fetch
returns the enrichment-failure outcome (`None`) iff the page fetch
failed or the mandatory title element is missing; when the title is
found the call succeeds, with publisher/circle, category labels, genre
labels and the image list degrading to defaults, and the rating
degrades to `0` on any API fetch / JSON lookup / field failure without
failing the call. -/
theorem scrape_failure_characterization (env : Env) (gc fp : String) (fs : Fs)
    (tmpl : String) (hdict : dictGet base_urls (pyPrefix2 gc) = some tmpl) :
    ((scrape_game_info env gc fp fs).1 = .ok none ↔
      env.htmlFetch (pyFormat tmpl gc) = none ∨
        ∃ soup, env.htmlFetch (pyFormat tmpl gc) = some soup ∧
          soup.title = none) ∧
    (∀ soup t, env.htmlFetch (pyFormat tmpl gc) = some soup →
      soup.title = some t →
      ∃ info fs2 evs,
        scrape_game_info env gc fp fs = (.ok (some info), fs2, evs) ∧
        info.title = t ∧ info.rating = (get_rating env gc).1 ∧
        (soup.makerName = none → info.circle = "Unknown") ∧
        (soup.categoryType = none → info.work_type = "") ∧
        (soup.mainGenre = none → info.genres = "") ∧
        (soup.sliderData = none → info.cover_image = "")) ∧
    (∀ tmplA, dictGet api_urls (pyPrefix2 gc) = some tmplA →
      (env.apiFetch (pyFormat tmplA gc) = none → (get_rating env gc).1 = 0) ∧
      (∀ data, env.apiFetch (pyFormat tmplA gc) = some data →
        (dictGet data gc = none → (get_rating env gc).1 = 0) ∧
        (∀ e2, dictGet data gc = some e2 → e2.rate_average_2dp = none →
          (get_rating env gc).1 = 0))) := by
  refine ⟨?_, ?_, ?_⟩
  · rcases hf : env.htmlFetch (pyFormat tmpl gc) with - | soup
    · simp [scrape_game_info, hdict, hf]
    · rcases ht : soup.title with - | t
      · simp [scrape_game_info, hdict, hf, ht]
      · simp [scrape_game_info, hdict, hf, ht]
  · intro soup t hf ht
    simp only [scrape_game_info, hdict, hf, ht]
    refine ⟨_, _, _, rfl, rfl, rfl, ?_, ?_, ?_, ?_⟩
    · intro h
      simp [h]
    · intro h
      simp [h, joinComma]
    · intro h
      simp [h, joinComma]
    · intro h
      simp [h, cover_for]
  · intro tmplA hA
    refine ⟨?_, ?_⟩
    · intro hnone
      simp [get_rating, hA, hnone]
    · intro data hdata
      refine ⟨?_, ?_⟩
      · intro hlook
        simp [get_rating, hA, hdata, hlook]
      · intro e2 he2 hrate
        simp [get_rating, hA, hdata, he2, hrate]

/-- A page whose only located element is the title. -/
def soupT : Soup :=
  { title := some "T", makerName := none, categoryType := none,
    mainGenre := none, sliderData := none }

/-- Environment whose page fetch always yields `soupT` and whose API
fetch always fails. -/
def envC6 : Env := { envTriv with htmlFetch := fun _ => some soupT }

/-- Witness for C6: a fetch over `envC6` succeeds with all degraded
fields, and the rating degrades to `0`. -/
theorem scrape_failure_characterization_witness :
    (∃ info fs2 evs,
      scrape_game_info envC6 "RJ5" "P" (fun _ => none) =
        (.ok (some info), fs2, evs) ∧ info.title = "T" ∧
        info.rating = (get_rating envC6 "RJ5").1 ∧
        (soupT.makerName = none → info.circle = "Unknown") ∧
        (soupT.categoryType = none → info.work_type = "") ∧
        (soupT.mainGenre = none → info.genres = "") ∧
        (soupT.sliderData = none → info.cover_image = "")) ∧
    (get_rating envC6 "RJ5").1 = 0 :=
  ⟨(scrape_failure_characterization envC6 "RJ5" "P" (fun _ => none)
      "https://www.dlsite.com/maniax/work/=/product_id/\x7b\x7d.html"
      (by decide)).2.1 soupT "T" rfl rfl,
   ((scrape_failure_characterization envC6 "RJ5" "P" (fun _ => none)
      "https://www.dlsite.com/maniax/work/=/product_id/\x7b\x7d.html"
      (by decide)).2.2
      "https://www.dlsite.com/maniax/product/info/ajax?product_id=\x7b\x7d&cdn_cache_min=1"
      (by decide)).1 rfl⟩

end DLGV

namespace DLGV

/-! ## C1 — registered folders are skipped before any network work -/

/-- Environment with one game path `G` holding one folder that is
already registered in the store. -/
def envSkip : Env :=
  { envTriv with
    dirExists := fun _ => true
    isDir := fun _ => true
    listDir := fun p => if p = "G" then ["RJ9_x"] else [] }

/-- **C1**: every folder whose normalized path is in the path set
loaded from the store at the start of the run is classified `skipped`,
with no network requests issued for it and no row inserted for its
path; the membership test compares `npath`-normalized paths on both
sides (the DB side via `dbPaths.map npath`, the folder side inside
`process_one`). -/
theorem registered_folder_skipped (env : Env) (np : String → String)
    (dbPaths game_paths : List String) (fs : Fs) (st : ScanState)
    (outs : List FolderOutcome)
    (h : process_folders env np dbPaths game_paths fs = .ok (st, outs)) :
    ∀ o, o ∈ outs → o.path ∈ dbPaths.map np →
      o.classification = .skipped ∧ o.events = [] ∧
      ∀ r, r ∈ st.rows → r.folder_path ≠ o.path := by
  intro o ho hmem
  obtain ⟨-, irows, iout, -, -, -⟩ := process_folders_inv h
  obtain ⟨hc, he⟩ := iout o ho hmem
  refine ⟨hc, he, ?_⟩
  intro r hr hrp
  exact (irows r hr).1 (by rw [hrp]; exact hmem)

/-- Witness for C1: a one-folder run over `envSkip` with the folder
already in the DB path set. -/
theorem registered_folder_skipped_witness :
    (⟨"RJ9_x", "G/RJ9_x", Classification.skipped, []⟩ :
        FolderOutcome).classification = .skipped ∧
    (⟨"RJ9_x", "G/RJ9_x", Classification.skipped, []⟩ :
        FolderOutcome).events = [] ∧
    (∀ r, r ∈ (⟨["G/RJ9_x"], ["RJ9_x"], [], [], [],
        fun _ => none⟩ : ScanState).rows →
      r.folder_path ≠ (⟨"RJ9_x", "G/RJ9_x", Classification.skipped, []⟩ :
        FolderOutcome).path) :=
  registered_folder_skipped envSkip (fun s => s) ["G/RJ9_x"] ["G"]
    (fun _ => none)
    ⟨["G/RJ9_x"], ["RJ9_x"], [], [], [], fun _ => none⟩
    [⟨"RJ9_x", "G/RJ9_x", Classification.skipped, []⟩] (by rfl)
    ⟨"RJ9_x", "G/RJ9_x", Classification.skipped, []⟩ (by decide) (by decide)

end DLGV

namespace DLGV

/-! ## C2 — zero-executable folders are never persisted

The claim as frozen says every folder with a valid identifier and zero
`.exe` files is classified `noExecutable`.  The code reaches the
executable check only after a *successful* enrichment of a
*not-yet-registered* folder: a folder whose enrichment fails is put in
the `invalid` report list (`enrichmentFailed`) even if it also has zero
executables, and an already-registered folder is `skipped`.  The
no-insert part holds unconditionally. -/

/-- Initial scan state over an empty store and empty file system. -/
def stInit : ScanState := ⟨[], [], [], [], [], fun _ => none⟩

/-- Environment with one folder `RJ1_game` under `G`, whose page fetch
always fails and which holds no files. -/
def envFail : Env :=
  { envTriv with
    dirExists := fun _ => true
    isDir := fun _ => true
    listDir := fun p => if p = "G" then ["RJ1_game"] else [] }

/-- Counterexample to C2 as stated: the folder `G/RJ1_game` has the
valid identifier `RJ1` and zero `.exe` files, yet the run classifies
it `enrichmentFailed` (its path in the `invalid` list, `no_exe` empty),
not `noExecutable`, because its page fetch failed.  (No row is
inserted, as the claim also says.) -/
theorem no_executable_claim_counterexample :
    Except.map (fun r => ((r.2.map FolderOutcome.classification),
        r.1.no_exe, r.1.invalid, r.1.rows.length))
      (process_folders envFail (fun s => s) [] ["G"] (fun _ => none)) =
      .ok ([Classification.enrichmentFailed], [], ["G/RJ1_game"], 0) ∧
    extract_game_code "RJ1_game" = some "RJ1" ∧
    get_exe_files (envFail.walkFiles "G/RJ1_game") = [] := by
  refine ⟨by rfl, by decide, by rfl⟩

/-- **C2** (amended): a folder that is not already in the store's path
set, has a valid identifier, enriches successfully, and has zero files
ending (case-insensitively) in `.exe` is classified `noExecutable`; no
row is inserted for it and its path is not added to the registered set
(the produced state differs only in the `no_exe` list and the file
system), so a subsequent run visits it again rather than skipping it.
Run-wide, no inserted row ever has an empty executable list. -/
theorem no_executable_not_persisted :
    (∀ (env : Env) (np : String → String) (st : ScanState)
        (gp name gc : String) (info : GameInfo) (fs2 : Fs)
        (evs : List ScanEvent),
      env.isDir (np (pathJoin gp name)) = true →
      np (pathJoin gp name) ∉ st.registered →
      extract_game_code name = some gc →
      scrape_game_info env gc (np (pathJoin gp name)) st.fs =
        (.ok (some info), fs2, evs) →
      get_exe_files (env.walkFiles (np (pathJoin gp name))) = [] →
      process_one env np st gp name =
        .ok ({ st with no_exe := st.no_exe ++ [name], fs := fs2 },
          some ⟨name, np (pathJoin gp name), .noExecutable, evs⟩)) ∧
    (∀ (env : Env) (np : String → String) (dbPaths game_paths : List String)
        (fs : Fs) (st : ScanState) (outs : List FolderOutcome),
      process_folders env np dbPaths game_paths fs = .ok (st, outs) →
      ∀ r, r ∈ st.rows → r.exe_files ≠ []) := by
  refine ⟨?_, ?_⟩
  · intro env np st gp name gc info fs2 evs hdir hm hx hs he
    simp only [process_one, if_neg hm, hx, hs, if_pos he]
    rw [if_neg (not_not_intro hdir)]
  · intro env np dbPaths game_paths fs st outs h r hr
    exact ((process_folders_inv h).2.1 r hr).2.1

/-- Environment where enrichment succeeds (title-only page) but the
folder holds no files at all. -/
def envNoExe : Env :=
  { envTriv with
    dirExists := fun _ => true
    isDir := fun _ => true
    htmlFetch := fun _ => some soupT
    listDir := fun p => if p = "G" then ["RJ1_game"] else [] }

/-- Witness for C2 on a concrete folder with a valid identifier,
successful enrichment, and no files. -/
theorem no_executable_not_persisted_witness :
    (process_one envNoExe (fun s => s) stInit "G" "RJ1_game" =
      .ok ((⟨[], [], [], ["RJ1_game"], [], fun _ => none⟩ : ScanState),
        some ⟨"RJ1_game", "G/RJ1_game", .noExecutable,
          [.fetchPage
            "https://www.dlsite.com/maniax/work/=/product_id/RJ1.html",
           .fetchApi
            "https://www.dlsite.com/maniax/product/info/ajax?product_id=RJ1&cdn_cache_min=1"]⟩)) ∧
    (∀ r, r ∈ (⟨[], [], [], ["RJ1_game"], [], fun _ => none⟩ :
        ScanState).rows → r.exe_files ≠ []) :=
  ⟨no_executable_not_persisted.1 envNoExe (fun s => s) stInit "G" "RJ1_game"
      "RJ1" ⟨"RJ1", "T", 0, "Unknown", "", "", ""⟩ (fun _ => none)
      [.fetchPage "https://www.dlsite.com/maniax/work/=/product_id/RJ1.html",
       .fetchApi
        "https://www.dlsite.com/maniax/product/info/ajax?product_id=RJ1&cdn_cache_min=1"]
      rfl (by decide) (by decide) (by rfl) (by rfl),
   no_executable_not_persisted.2 envNoExe (fun s => s) [] ["G"]
      (fun _ => none) ⟨[], [], [], ["RJ1_game"], [], fun _ => none⟩
      [⟨"RJ1_game", "G/RJ1_game", .noExecutable,
        [.fetchPage "https://www.dlsite.com/maniax/work/=/product_id/RJ1.html",
         .fetchApi
          "https://www.dlsite.com/maniax/product/info/ajax?product_id=RJ1&cdn_cache_min=1"]⟩]
      (by rfl)⟩

end DLGV

namespace DLGV

/-! ## C3 — the scan report

The claim as frozen says the report keeps a separate count and path
list for each of the four non-Registered classifications.  The code
keeps only three lists: `skipped_folders`, `no_exe_folders`, and one
`invalid_folders` list that receives both the folders whose name had no
identifier (line 335) and the folders whose enrichment failed
(line 372); `scan_complete` shows one merged count for the two. -/

/-- Environment with one game path `G` holding a folder without an
identifier and a folder whose enrichment fails. -/
def envTwo : Env :=
  { envTriv with
    dirExists := fun _ => true
    isDir := fun _ => true
    listDir := fun p => if p = "G" then ["AAA", "RJ2_g"] else [] }

/-- Counterexample to C3 as stated: in a run over `envTwo`, the folder
classified `noIdentifier` (`G/AAA`) and the folder classified
`enrichmentFailed` (`G/RJ2_g`) both land in the single `invalid` list,
and the report has only the three counts `(0, 2, 0)` — there is no
separate list or count for `enrichmentFailed`. -/
theorem separate_report_lists_counterexample :
    Except.map (fun r => ((r.2.map FolderOutcome.classification),
        r.1.skipped, r.1.invalid, r.1.no_exe, scan_complete r.1))
      (process_folders envTwo (fun s => s) [] ["G"] (fun _ => none)) =
      .ok ([Classification.noIdentifier, Classification.enrichmentFailed],
        [], ["G/AAA", "G/RJ2_g"], [], ⟨0, 2, 0⟩) := by
  rfl

/-- **C3** (amended): a scan run produces a report with three lists and
their counts: the skipped folder names, the `invalid` folder paths —
which combine the `noIdentifier` and `enrichmentFailed`
classifications in one shared list and one shared count — and the
`noExecutable` folder names. -/
theorem scan_report_merged_lists (env : Env) (np : String → String)
    (dbPaths game_paths : List String) (fs : Fs) (st : ScanState)
    (outs : List FolderOutcome)
    (h : process_folders env np dbPaths game_paths fs = .ok (st, outs)) :
    st.skipped = skippedNames outs ∧ st.invalid = invalidPaths outs ∧
    st.no_exe = noExeNames outs ∧
    scan_complete st = ⟨(skippedNames outs).length,
      (invalidPaths outs).length, (noExeNames outs).length⟩ := by
  obtain ⟨-, -, -, hsk, hinv, hnx⟩ := process_folders_inv h
  refine ⟨hsk, hinv, hnx, ?_⟩
  simp [scan_complete, hsk, hinv, hnx]

/-- Witness for C3 on the two-folder run over `envTwo`. -/
theorem scan_report_merged_lists_witness :
    ([] : List String) =
      skippedNames [⟨"AAA", "G/AAA", .noIdentifier, []⟩,
        ⟨"RJ2_g", "G/RJ2_g", .enrichmentFailed,
          [.fetchPage
            "https://www.dlsite.com/maniax/work/=/product_id/RJ2.html"]⟩] ∧
    ["G/AAA", "G/RJ2_g"] =
      invalidPaths [⟨"AAA", "G/AAA", .noIdentifier, []⟩,
        ⟨"RJ2_g", "G/RJ2_g", .enrichmentFailed,
          [.fetchPage
            "https://www.dlsite.com/maniax/work/=/product_id/RJ2.html"]⟩] ∧
    ([] : List String) =
      noExeNames [⟨"AAA", "G/AAA", .noIdentifier, []⟩,
        ⟨"RJ2_g", "G/RJ2_g", .enrichmentFailed,
          [.fetchPage
            "https://www.dlsite.com/maniax/work/=/product_id/RJ2.html"]⟩] ∧
    scan_complete ⟨[], [], ["G/AAA", "G/RJ2_g"], [], [], fun _ => none⟩ =
      ⟨(skippedNames [⟨"AAA", "G/AAA", .noIdentifier, []⟩,
          ⟨"RJ2_g", "G/RJ2_g", .enrichmentFailed,
            [.fetchPage
              "https://www.dlsite.com/maniax/work/=/product_id/RJ2.html"]⟩]).length,
        (invalidPaths [⟨"AAA", "G/AAA", .noIdentifier, []⟩,
          ⟨"RJ2_g", "G/RJ2_g", .enrichmentFailed,
            [.fetchPage
              "https://www.dlsite.com/maniax/work/=/product_id/RJ2.html"]⟩]).length,
        (noExeNames [⟨"AAA", "G/AAA", .noIdentifier, []⟩,
          ⟨"RJ2_g", "G/RJ2_g", .enrichmentFailed,
            [.fetchPage
              "https://www.dlsite.com/maniax/work/=/product_id/RJ2.html"]⟩]).length⟩ :=
  scan_report_merged_lists envTwo (fun s => s) [] ["G"] (fun _ => none)
    ⟨[], [], ["G/AAA", "G/RJ2_g"], [], [], fun _ => none⟩
    [⟨"AAA", "G/AAA", .noIdentifier, []⟩,
      ⟨"RJ2_g", "G/RJ2_g", .enrichmentFailed,
        [.fetchPage
          "https://www.dlsite.com/maniax/work/=/product_id/RJ2.html"]⟩]
    (by rfl)

end DLGV

namespace DLGV

/-! ## C10 — cover image path shape -/

theorem get_rating_congr {env env2 : Env} (h : env2.apiFetch = env.apiFetch)
    (gc : String) : get_rating env gc = get_rating env2 gc := by
  simp only [get_rating, h]

theorem cover_for_fst_indep (n n2 : String → Option Nat) (urls : List String)
    (fp : String) (fs : Fs) :
    (cover_for n urls fp fs).1 = (cover_for n2 urls fp fs).1 := by
  unfold cover_for
  split_ifs with h1
  · rfl
  · by_cases h2 :
        (fs (pathJoin (pathJoin fp "thumb_imgs") "00.jpg")).isSome = true <;>
      simp [h2]

/-- **C10** (implicit): every row the scan inserts has a cover path
that is either empty or exactly `<folderPath>/thumb_imgs/00.jpg`; for
a successfully scraped page the cover is empty iff the candidate image
URL list is empty; the returned metadata (cover path included) does not
depend on the image-download oracle, so the path is recorded even when
the download fails; and the consumer enqueues a thumbnail request only
after checking the cover file exists. -/
theorem cover_path_shape :
    (∀ (env : Env) (np : String → String) (dbPaths game_paths : List String)
        (fs : Fs) (st : ScanState) (outs : List FolderOutcome),
      process_folders env np dbPaths game_paths fs = .ok (st, outs) →
      ∀ r, r ∈ st.rows → r.cover_image = "" ∨
        r.cover_image = pathJoin (pathJoin r.folder_path "thumb_imgs") "00.jpg") ∧
    (∀ (env : Env) (gc fp : String) (fs : Fs) (tmpl : String) (soup : Soup)
        (t : String) (info : GameInfo) (fs2 : Fs) (evs : List ScanEvent),
      dictGet base_urls (pyPrefix2 gc) = some tmpl →
      env.htmlFetch (pyFormat tmpl gc) = some soup → soup.title = some t →
      scrape_game_info env gc fp fs = (.ok (some info), fs2, evs) →
      (info.cover_image = "" ↔ soup.sliderData.getD [] = [])) ∧
    (∀ (env env2 : Env) (gc fp : String) (fs : Fs),
      env2.htmlFetch = env.htmlFetch → env2.apiFetch = env.apiFetch →
      (scrape_game_info env gc fp fs).1 = (scrape_game_info env2 gc fp fs).1) ∧
    (∀ (fsE : String → Bool) (label : Nat) (cover : String),
      fsE cover = false → card_image_request fsE label cover = none) := by
  refine ⟨?_, ?_, ?_, ?_⟩
  · intro env np dbPaths game_paths fs st outs h r hr
    exact ((process_folders_inv h).2.1 r hr).2.2
  · intro env gc fp fs tmpl soup t info fs2 evs hdict hf ht hs
    simp only [scrape_game_info, hdict, hf, ht] at hs
    have h1 := congrArg (fun p => p.1) hs
    simp only [Except.ok.injEq, Option.some.injEq] at h1
    subst h1
    exact cover_for_empty_iff env.netImg (soup.sliderData.getD []) fp fs
  · intro env env2 gc fp fs hhtml hapi
    rcases hdict : dictGet base_urls (pyPrefix2 gc) with - | tmpl
    · simp [scrape_game_info, hdict]
    · rcases hf : env.htmlFetch (pyFormat tmpl gc) with - | soup
      · simp [scrape_game_info, hdict, hf, hhtml]
      · rcases ht : soup.title with - | t
        · simp [scrape_game_info, hdict, hf, hhtml, ht]
        · simp only [scrape_game_info, hdict, hf, hhtml, ht,
            Except.ok.injEq, Option.some.injEq]
          rw [get_rating_congr hapi gc,
            cover_for_fst_indep env.netImg env2.netImg
              (soup.sliderData.getD []) fp fs]
  · intro fsE label cover h
    rw [card_image_request, if_neg (by simp [h])]

/-- A fully populated page: title, maker, one empty category span,
two genres, two image URLs (one scheme-relative). -/
def soupFull : Soup :=
  { title := some "T", makerName := some "M",
    categoryType := some ["c", ""], mainGenre := some ["g1", "g2"],
    sliderData := some ["u1", "//img/u2"] }

/-- Environment over which a folder registers successfully with a
cover path, while every image download fails. -/
def envFull : Env :=
  { envTriv with
    dirExists := fun _ => true
    isDir := fun _ => true
    htmlFetch := fun _ => some soupFull
    listDir := fun p => if p = "G" then ["RJ1_game"] else []
    walkFiles := fun _ => ["x/Game.exe", "readme.txt"] }

/-- Witness for C10: the run over `envFull` inserts one row whose
cover path is `G/RJ1_game/thumb_imgs/00.jpg` even though both image
downloads failed, the cover-emptiness criterion holds for its scrape,
and the consumer's check suppresses the request for a missing file. -/
theorem cover_path_shape_witness :
    ((⟨"RJ1", "T", 0, "M", "c", "g1, g2", "G/RJ1_game/thumb_imgs/00.jpg",
        "G/RJ1_game", ["x/Game.exe"]⟩ : GameRow).cover_image = "" ∨
      (⟨"RJ1", "T", 0, "M", "c", "g1, g2", "G/RJ1_game/thumb_imgs/00.jpg",
        "G/RJ1_game", ["x/Game.exe"]⟩ : GameRow).cover_image =
        pathJoin (pathJoin (⟨"RJ1", "T", 0, "M", "c", "g1, g2",
          "G/RJ1_game/thumb_imgs/00.jpg", "G/RJ1_game",
          ["x/Game.exe"]⟩ : GameRow).folder_path "thumb_imgs") "00.jpg") ∧
    ((⟨"RJ1", "T", 0, "M", "c", "g1, g2", "G/RJ1_game/thumb_imgs/00.jpg"⟩ :
        GameInfo).cover_image = "" ↔ soupFull.sliderData.getD [] = []) ∧
    card_image_request (fun _ => false) 0 "c.jpg" = none := by
  refine ⟨?_, ?_, ?_⟩
  · exact cover_path_shape.1 envFull (fun s => s) [] ["G"]
      (fun _ => none)
      ⟨["G/RJ1_game"], [], [], [],
        [⟨"RJ1", "T", 0, "M", "c", "g1, g2", "G/RJ1_game/thumb_imgs/00.jpg",
          "G/RJ1_game", ["x/Game.exe"]⟩], fun _ => none⟩
      [⟨"RJ1_game", "G/RJ1_game", .registered,
        [.fetchPage "https://www.dlsite.com/maniax/work/=/product_id/RJ1.html",
         .fetchApi
          "https://www.dlsite.com/maniax/product/info/ajax?product_id=RJ1&cdn_cache_min=1",
         .fetchImg 0 "https://u1", .fetchImg 1 "https://img/u2"]⟩]
      (by rfl)
      ⟨"RJ1", "T", 0, "M", "c", "g1, g2", "G/RJ1_game/thumb_imgs/00.jpg",
        "G/RJ1_game", ["x/Game.exe"]⟩ (by decide)
  · exact cover_path_shape.2.1 envFull "RJ1" "G/RJ1_game"
      (fun _ => none)
      "https://www.dlsite.com/maniax/work/=/product_id/\x7b\x7d.html"
      soupFull "T"
      ⟨"RJ1", "T", 0, "M", "c", "g1, g2", "G/RJ1_game/thumb_imgs/00.jpg"⟩
      (fun _ => none)
      [.fetchPage "https://www.dlsite.com/maniax/work/=/product_id/RJ1.html",
       .fetchApi
        "https://www.dlsite.com/maniax/product/info/ajax?product_id=RJ1&cdn_cache_min=1",
       .fetchImg 0 "https://u1", .fetchImg 1 "https://img/u2"]
      (by decide) rfl rfl (by rfl)
  · exact cover_path_shape.2.2.2 (fun _ => false) 0 "c.jpg" rfl

end DLGV
